import Mathlib

/-!
# Verification of `torchgeometry/core/pinhole.py`

A shallow embedding of the pinhole-camera module and proofs of the
specified properties.  Tensor entries are modelled as rationals; a
batched `(B, 4, 4)` tensor is a `List Mat4`, a batched `(B,)` tensor is
a `List ℚ`.  Shape-validation logic, which in the source inspects only
`tensor.shape`, is embedded separately as functions on shape lists.
Object identity (tensor storage sharing) is modelled by a store of
tensors addressed by numeric ids.
-/

namespace Pinhole

/-- A single `4 × 4` matrix of rationals (one batch slice of a
`(B, 4, 4)` tensor). -/
abbrev Mat4 : Type := Matrix (Fin 4) (Fin 4) ℚ

/-- The all-zeros matrix, used as an out-of-range default. -/
def zeroMat : Mat4 := fun _ _ => 0

/-- The 4×4 identity, `torch.eye(4)`. -/
def eye4 : Mat4 := fun i j => if i = j then 1 else 0

/-- In-place single-entry assignment `m[r, c] = v` on a 4×4 slice. -/
def setEntry (m : Mat4) (r c : Fin 4) (v : ℚ) : Mat4 :=
  fun i j => if i = r ∧ j = c then v else m i j

/-! ## Shape validation (`PinholeCamera.__init__` and its helpers)

The checks in the source operate only on `tensor.shape`, so they are
embedded as functions of shape lists (`List Nat`). -/

/-- Embeds `PinholeCamera._check_valid`.  The source condition is
`not all(data.shape[0] for data in data_iter)`: it raises exactly when
some leading dimension is `0` (falsy); it does not compare the batch
sizes with one another. -/
def check_valid (shapes : List (List Nat)) : Except String Unit :=
  if shapes.all (fun s => s.headD 0 ≠ 0) then Except.ok ()
  else Except.error "Arguments shapes must match"

/-- Embeds the sub-expression `data.shape[-2:] is not (4, 4)` of
`PinholeCamera._check_valid_params`.  `is not` compares object
identity, and a freshly built `torch.Size` slice is never the same
object as the literal tuple `(4, 4)`, so the expression is always
`True`; equivalently, the identity test `is (4, 4)` is always `False`. -/
def shapeSliceIs44 (_ : List Nat) : Bool := false

/-- Embeds `PinholeCamera._check_valid_params`: raises when
`len(data.shape) not in (3, 4) and data.shape[-2:] is not (4, 4)`. -/
def check_valid_params (shape : List Nat) (data_name : String) :
    Except String Unit :=
  if ¬(shape.length = 3 ∨ shape.length = 4) ∧ ¬(shapeSliceIs44 shape) then
    Except.error ("Argument " ++ data_name ++ " shape must be in the" ++
      " following shape Bx4x4 or BxNx4x4")
  else Except.ok ()

/-- Embeds `PinholeCamera._check_valid_shape`: raises unless the tensor
has rank 1. -/
def check_valid_shape (shape : List Nat) (data_name : String) :
    Except String Unit :=
  if shape.length = 1 then Except.ok ()
  else Except.error ("Argument " ++ data_name ++ " shape must be in the" ++
    " following shape B")

/-- Embeds the validation sequence run by `PinholeCamera.__init__` on
the shapes of its four arguments, in source order. -/
def init_validation (intrinsicsShape extrinsicsShape heightShape
    widthShape : List Nat) : Except String Unit := do
  check_valid [intrinsicsShape, extrinsicsShape, heightShape, widthShape]
  check_valid_params intrinsicsShape "intrinsics"
  check_valid_params extrinsicsShape "extrinsics"
  check_valid_shape heightShape "height"
  check_valid_shape widthShape "width"

/-! ## Flat 12-parameter functions

A pinhole row is `[fx, fy, cx, cy, h, w, rx, ry, rz, tx, ty, tz]`,
modelled as `Fin 12 → ℚ`; an `(N, 12)` tensor is a list of rows. -/

/-- One row of `pinhole_matrix`: start from `torch.eye(4) + eps`
(which adds `eps` to every entry) and overwrite `[0,0] = fx`,
`[0,2] = cx`, `[1,1] = fy`, `[1,2] = cy`. -/
def pinhole_matrix_row (p : Fin 12 → ℚ) (eps : ℚ) : Mat4 :=
  let k : Mat4 := fun i j => eye4 i j + eps
  let k := setEntry k 0 0 (p 0)
  let k := setEntry k 0 2 (p 2)
  let k := setEntry k 1 1 (p 1)
  let k := setEntry k 1 2 (p 3)
  k

/-- Embeds `pinhole_matrix` on an `(N, 12)` input: the per-row matrix
assembly mapped over the batch. -/
def pinhole_matrix (ps : List (Fin 12 → ℚ)) (eps : ℚ := 1/1000000) :
    List Mat4 :=
  ps.map (fun p => pinhole_matrix_row p eps)

/-- One row of `inverse_pinhole_matrix`: start from `torch.eye(4)`
(no `eps` term) and overwrite `[0,0] = 1/(fx+eps)`,
`[1,1] = 1/(fy+eps)`, `[0,2] = -1*cx/(fx+eps)`,
`[1,2] = -1*cy/(fy+eps)`. -/
def inverse_pinhole_matrix_row (p : Fin 12 → ℚ) (eps : ℚ) : Mat4 :=
  let k : Mat4 := eye4
  let k := setEntry k 0 0 (1 / (p 0 + eps))
  let k := setEntry k 1 1 (1 / (p 1 + eps))
  let k := setEntry k 0 2 (-1 * p 2 / (p 0 + eps))
  let k := setEntry k 1 2 (-1 * p 3 / (p 1 + eps))
  k

/-- Embeds `inverse_pinhole_matrix` on an `(N, 12)` input. -/
def inverse_pinhole_matrix (ps : List (Fin 12 → ℚ))
    (eps : ℚ := 1/1000000) : List Mat4 :=
  ps.map (fun p => inverse_pinhole_matrix_row p eps)

/-! ## `homography_i_H_ref` argument checks

The two `assert` statements at the head of `homography_i_H_ref` are
embedded over the shapes of the two arguments.  An `assert cond, msg`
in Python evaluates `msg` only when `cond` is false; the first
assert's message expression is `pinhole.shape`, and `pinhole` is an
undefined name inside that function, so a failing first assert raises
`NameError` rather than a descriptive `AssertionError`. -/

/-- A Python exception as observed by the caller. -/
inductive PyExc where
  /-- `AssertionError` carrying the shape used as the message. -/
  | assertionError (shownShape : List Nat)
  /-- `NameError` from evaluating an undefined name. -/
  | nameError (missing : String)
  deriving DecidableEq, Repr

/-- Embeds the argument checking of `homography_i_H_ref` on the shapes
of `pinhole_i` and `pinhole_ref`:
`assert len(pinhole_i.shape) == 2 and pinhole_i.shape[1] == 12, pinhole.shape`
followed by
`assert pinhole_i.shape == pinhole_ref.shape, pinhole_ref.shape`. -/
def homography_i_H_ref_checks (shape_i shape_ref : List Nat) :
    Except PyExc Unit :=
  if shape_i.length = 2 ∧ shape_i.getD 1 0 = 12 then
    if shape_i = shape_ref then Except.ok ()
    else Except.error (PyExc.assertionError shape_ref)
  else Except.error (PyExc.nameError "pinhole")

/-! ## Tensor store and `PinholeCamera`

Python tensors are heap objects; sharing and in-place mutation are
observable.  A `Store` holds every live tensor: `mats` the batched
`(B, 4, 4)` tensors, `vecs` the batched `(B,)` tensors, each addressed
by its index.  A `PinholeCamera` holds the ids of its four tensors, as
the Python object holds references. -/

/-- The heap of live tensors. -/
structure Store where
  /-- Rank-3 `(B, 4, 4)` tensors. -/
  mats : List (List Mat4)
  /-- Rank-1 `(B,)` tensors. -/
  vecs : List (List ℚ)

/-- Read a matrix tensor. -/
def Store.readMat (s : Store) (i : Nat) : List Mat4 := s.mats.getD i []

/-- Read a scalar-batch tensor. -/
def Store.readVec (s : Store) (i : Nat) : List ℚ := s.vecs.getD i []

/-- Allocate a fresh matrix tensor; returns its id and the new store. -/
def Store.allocMat (s : Store) (v : List Mat4) : Nat × Store :=
  (s.mats.length, { s with mats := s.mats ++ [v] })

/-- Allocate a fresh scalar-batch tensor. -/
def Store.allocVec (s : Store) (v : List ℚ) : Nat × Store :=
  (s.vecs.length, { s with vecs := s.vecs ++ [v] })

/-- Overwrite a matrix tensor in place. -/
def Store.writeMat (s : Store) (i : Nat) (v : List Mat4) : Store :=
  { s with mats := s.mats.set i v }

/-- Overwrite a scalar-batch tensor in place. -/
def Store.writeVec (s : Store) (i : Nat) (v : List ℚ) : Store :=
  { s with vecs := s.vecs.set i v }

/-- A `PinholeCamera` object: references (ids) to its four tensors. -/
structure PinholeCamera where
  /-- id of the `(B, 4, 4)` intrinsics tensor. -/
  intrinsicsId : Nat
  /-- id of the `(B, 4, 4)` extrinsics tensor. -/
  extrinsicsId : Nat
  /-- id of the `(B,)` height tensor. -/
  heightId : Nat
  /-- id of the `(B,)` width tensor. -/
  widthId : Nat
  deriving DecidableEq, Repr

/-- The camera's references point at live tensors of the store. -/
def PinholeCamera.ValidIn (c : PinholeCamera) (s : Store) : Prop :=
  c.intrinsicsId < s.mats.length ∧ c.extrinsicsId < s.mats.length ∧
    c.heightId < s.vecs.length ∧ c.widthId < s.vecs.length

instance (c : PinholeCamera) (s : Store) : Decidable (c.ValidIn s) := by
  unfold PinholeCamera.ValidIn; infer_instance

/-- The spec's exclusive-ownership invariant: the four attribute
tensors are pairwise distinct objects (no aliasing between them). -/
def PinholeCamera.Exclusive (c : PinholeCamera) : Prop :=
  c.intrinsicsId ≠ c.extrinsicsId ∧ c.heightId ≠ c.widthId

instance (c : PinholeCamera) : Decidable c.Exclusive := by
  unfold PinholeCamera.Exclusive; infer_instance

/-- The class invariant on shapes: all four attribute tensors share the
leading batch dimension `B`. -/
def PinholeCamera.BatchIn (c : PinholeCamera) (s : Store) (B : Nat) :
    Prop :=
  (s.readMat c.intrinsicsId).length = B ∧
    (s.readMat c.extrinsicsId).length = B ∧
    (s.readVec c.heightId).length = B ∧
    (s.readVec c.widthId).length = B

instance (c : PinholeCamera) (s : Store) (B : Nat) :
    Decidable (c.BatchIn s B) := by
  unfold PinholeCamera.BatchIn; infer_instance

/-- All four attribute tensors of `c` read the same in `s'` as in `s`
(used to state that an operation leaves the original camera intact). -/
def PinholeCamera.attrsUnchanged (c : PinholeCamera) (s s' : Store) :
    Prop :=
  s'.readMat c.intrinsicsId = s.readMat c.intrinsicsId ∧
    s'.readMat c.extrinsicsId = s.readMat c.extrinsicsId ∧
    s'.readVec c.heightId = s.readVec c.heightId ∧
    s'.readVec c.widthId = s.readVec c.widthId

/-- `mapIdx` with an explicit starting index (helper for broadcasted
elementwise operations along the batch dimension). -/
def mapIdxFrom (f : Nat → α → β) : Nat → List α → List β
  | _, [] => []
  | n, a :: as => f n a :: mapIdxFrom f (n + 1) as

/-- Elementwise map receiving the batch index. -/
def mapIdx (f : Nat → α → β) (l : List α) : List β := mapIdxFrom f 0 l

/-- The value a scale-factor tensor contributes at batch index `b`
under torch broadcasting: a one-element tensor broadcasts to every
batch element, a `(B,)` tensor acts elementwise. -/
def bfactor (factor : List ℚ) (b : Nat) : ℚ :=
  if factor.length = 1 then factor.getD 0 1 else factor.getD b 1

/-- One batch slice of the intrinsics scaling performed by
`PinholeCamera.scale` / `scale_`: entries `[0,0]`, `[1,1]`, `[0,2]`,
`[1,2]` are each multiplied in place by the factor. -/
def scaleIntrinsicsSlice (f : ℚ) (m : Mat4) : Mat4 :=
  let m := setEntry m 0 0 (m 0 0 * f)
  let m := setEntry m 1 1 (m 1 1 * f)
  let m := setEntry m 0 2 (m 0 2 * f)
  let m := setEntry m 1 2 (m 1 2 * f)
  m

/-- Embeds `PinholeCamera.clone`: reads the four tensors and allocates
an independent deep copy of each, then builds a new camera from the
copies (the constructor's shape checks are satisfied by construction
in this typed model). -/
def PinholeCamera.clone (c : PinholeCamera) (s : Store) :
    PinholeCamera × Store :=
  let (h, s) := s.allocVec (s.readVec c.heightId)
  let (w, s) := s.allocVec (s.readVec c.widthId)
  let (k, s) := s.allocMat (s.readMat c.intrinsicsId)
  let (e, s) := s.allocMat (s.readMat c.extrinsicsId)
  (⟨k, e, h, w⟩, s)

/-- Embeds `PinholeCamera.scale`: clones the intrinsics and scales the
clone's `[0,0]`, `[1,1]`, `[0,2]`, `[1,2]` entries, builds scaled
copies of height and width, and constructs the result camera over the
new intrinsics/height/width but the receiver's own extrinsics tensor
(shared, not cloned). -/
def PinholeCamera.scale (c : PinholeCamera) (factor : List ℚ)
    (s : Store) : PinholeCamera × Store :=
  let intrinsics := mapIdx
    (fun b m => scaleIntrinsicsSlice (bfactor factor b) m)
    (s.readMat c.intrinsicsId)
  let (k, s) := s.allocMat intrinsics
  let height := mapIdx (fun b x => bfactor factor b * x)
    (s.readVec c.heightId)
  let (h, s) := s.allocVec height
  let width := mapIdx (fun b x => bfactor factor b * x)
    (s.readVec c.widthId)
  let (w, s) := s.allocVec width
  (⟨k, c.extrinsicsId, h, w⟩, s)

/-- Embeds `PinholeCamera.scale_`: multiplies the receiver's own
intrinsics entries, height and width in place (writes through the held
references) and returns the receiver itself. -/
def PinholeCamera.scale_ (c : PinholeCamera) (factor : List ℚ)
    (s : Store) : PinholeCamera × Store :=
  let s := s.writeMat c.intrinsicsId (mapIdx
    (fun b m => scaleIntrinsicsSlice (bfactor factor b) m)
    (s.readMat c.intrinsicsId))
  let s := s.writeVec c.heightId (mapIdx (fun b x => x * bfactor factor b)
    (s.readVec c.heightId))
  let s := s.writeVec c.widthId (mapIdx (fun b x => x * bfactor factor b)
    (s.readVec c.widthId))
  (c, s)

/-! ## `PinholeCamerasList`

The collection stacks the cameras' tensors along a new camera axis at
position 1.  The claims about it concern tensor values, so it is
modelled at value level: a camera's four tensors are carried directly,
and `torch.stack(ts, dim=1)` on `N` tensors of leading dimension `B`
produces the `(B, N, ...)` tensor with `out[b][k] = ts[k][b]`. -/

/-- The value content of one `PinholeCamera`: its four tensors. -/
structure PinholeCameraData where
  /-- `(B, 4, 4)` intrinsics values. -/
  intrinsics : List Mat4
  /-- `(B, 4, 4)` extrinsics values. -/
  extrinsics : List Mat4
  /-- `(B,)` height values. -/
  height : List ℚ
  /-- `(B,)` width values. -/
  width : List ℚ

/-- All four tensors of a camera have leading (batch) dimension `B`. -/
def PinholeCameraData.BatchSize (cam : PinholeCameraData) (B : Nat) :
    Prop :=
  cam.intrinsics.length = B ∧ cam.extrinsics.length = B ∧
    cam.height.length = B ∧ cam.width.length = B

instance (cam : PinholeCameraData) (B : Nat) :
    Decidable (cam.BatchSize B) := by
  unfold PinholeCameraData.BatchSize; infer_instance

/-- `torch.stack(ts, dim=1)` for `N` equal-length tensors: the result
indexed at `[b][k]` is `ts[k][b]`; the leading dimension is read off
the first stacked tensor (stacking requires all of them equal). -/
def stackDim1 (d : α) (ts : List (List α)) : List (List α) :=
  (List.range (ts.headD []).length).map
    (fun b => ts.map (fun t => t.getD b d))

/-- The stacked storage of `PinholeCamerasList`: height/width become
`(B, N)`, intrinsics/extrinsics become `(B, N, 4, 4)`. -/
structure PinholeCamerasList where
  /-- `(B, N)` heights. -/
  height : List (List ℚ)
  /-- `(B, N)` widths. -/
  width : List (List ℚ)
  /-- `(B, N, 4, 4)` intrinsics. -/
  intrinsics : List (List Mat4)
  /-- `(B, N, 4, 4)` extrinsics. -/
  extrinsics : List (List Mat4)

/-- Embeds `PinholeCamerasList._initialize_parameters`: collects the
four attributes of each camera in input order and stacks each group
along a new axis at position 1. -/
def mkPinholeCamerasList (pinholes : List PinholeCameraData) :
    PinholeCamerasList :=
  { height := stackDim1 0 (pinholes.map (fun c => c.height))
    width := stackDim1 0 (pinholes.map (fun c => c.width))
    intrinsics := stackDim1 zeroMat (pinholes.map (fun c => c.intrinsics))
    extrinsics := stackDim1 zeroMat (pinholes.map (fun c => c.extrinsics)) }

/-- Embeds `PinholeCamerasList.num_cameras`: `intrinsics.shape[1]`. -/
def num_cameras (l : PinholeCamerasList) : Nat :=
  (l.intrinsics.headD []).length

/-- Embeds `PinholeCamerasList.get_pinhole`: slices each stacked
attribute at `idx` along the camera axis (`height[..., idx]`,
`intrinsics[:, idx]`, ...) and rebuilds a single camera. -/
def get_pinhole (l : PinholeCamerasList) (idx : Nat) :
    PinholeCameraData :=
  { intrinsics := l.intrinsics.map (fun r => r.getD idx zeroMat)
    extrinsics := l.extrinsics.map (fun r => r.getD idx zeroMat)
    height := l.height.map (fun r => r.getD idx 0)
    width := l.width.map (fun r => r.getD idx 0) }

/-! ## Concrete fixtures used by witnesses and counterexamples -/

/-- A concrete store holding one camera: tensor 0 of `mats` is its
intrinsics, tensor 1 its extrinsics; tensor 0 of `vecs` its height,
tensor 1 its width (batch size 1). -/
def wStore : Store := ⟨[[eye4], [eye4]], [[10], [20]]⟩

/-- The camera whose four tensors live at the ids of `wStore`. -/
def wCam : PinholeCamera := ⟨0, 1, 0, 1⟩

/-- A concrete scale-factor tensor of shape `(1,)`. -/
def wFactor : List ℚ := [2]

/-- A concrete batch-size-1 camera value. -/
def wCamDataA : PinholeCameraData := ⟨[eye4], [eye4], [10], [20]⟩

/-- A second concrete batch-size-1 camera value. -/
def wCamDataB : PinholeCameraData := ⟨[zeroMat], [eye4], [30], [40]⟩

/-- Default camera value for out-of-range collection access. -/
def emptyCamData : PinholeCameraData := ⟨[], [], [], []⟩

/-- Parameter row with `fx = fy = 1` (bounded away from zero) and a
large principal point `cx = 10^6`. -/
def cexParams : Fin 12 → ℚ :=
  ![1, 1, 1000000, 0, 0, 0, 0, 0, 0, 0, 0, 0]

/-- The all-zeros parameter row (out-of-range default). -/
def zeroRow : Fin 12 → ℚ := fun _ => 0

/-- A well-behaved parameter row: `fx = fy = 100`, `cx = cy = 5`. -/
def wParams : Fin 12 → ℚ :=
  ![100, 100, 5, 5, 100, 100, 0, 0, 0, 0, 0, 0]

/-! ## List and store lemmas -/

theorem getD_append_lt (l l' : List α) (d : α) (i : Nat)
    (h : i < l.length) : (l ++ l').getD i d = l.getD i d := by
  rw [List.getD_eq_getElem _ _ (by simp; omega),
    List.getD_eq_getElem _ _ h]
  exact List.getElem_append_left h

theorem getD_append_self (l : List α) (v d : α) :
    (l ++ [v]).getD l.length d = v := by
  simp [List.getD_eq_getElem]

theorem getD_set_self (l : List α) (v d : α) (i : Nat)
    (h : i < l.length) : (l.set i v).getD i d = v := by
  simp [List.getD, List.getElem?_set_self, h]

theorem getD_set_ne (l : List α) (v d : α) (i j : Nat) (h : j ≠ i) :
    (l.set i v).getD j d = l.getD j d := by
  simp [List.getD, List.getElem?_set_ne (Ne.symm h)]

theorem length_mapIdxFrom (f : Nat → α → β) (n : Nat) (l : List α) :
    (mapIdxFrom f n l).length = l.length := by
  induction l generalizing n with
  | nil => rfl
  | cons a as ih => simp [mapIdxFrom, ih]

theorem getD_mapIdxFrom (f : Nat → α → β) (n : Nat) (l : List α)
    (i : Nat) (d : α) (d' : β) (h : i < l.length) :
    (mapIdxFrom f n l).getD i d' = f (n + i) (l.getD i d) := by
  induction l generalizing n i with
  | nil => simp at h
  | cons a as ih =>
    cases i with
    | zero => simp [mapIdxFrom]
    | succ i =>
      have hi : i < as.length := by simpa using h
      simp only [mapIdxFrom, List.getD_cons_succ]
      rw [ih (n + 1) i hi]
      congr 1
      omega

theorem length_mapIdx (f : Nat → α → β) (l : List α) :
    (mapIdx f l).length = l.length := length_mapIdxFrom f 0 l


theorem getD_mapIdx (f : Nat → α → β) (l : List α) (i : Nat) (d : α)
    (d' : β) (h : i < l.length) :
    (mapIdx f l).getD i d' = f i (l.getD i d) := by
  simpa using getD_mapIdxFrom f 0 l i d d' h

theorem readMat_allocMat_self (s : Store) (v : List Mat4) :
    (s.allocMat v).2.readMat (s.allocMat v).1 = v :=
  getD_append_self s.mats v []

theorem readMat_allocMat_lt (s : Store) (v : List Mat4) (i : Nat)
    (h : i < s.mats.length) : (s.allocMat v).2.readMat i = s.readMat i :=
  getD_append_lt s.mats [v] [] i h

theorem readVec_allocMat (s : Store) (v : List Mat4) (i : Nat) :
    (s.allocMat v).2.readVec i = s.readVec i := rfl

theorem readMat_allocVec (s : Store) (v : List ℚ) (i : Nat) :
    (s.allocVec v).2.readMat i = s.readMat i := rfl

theorem readVec_allocVec_self (s : Store) (v : List ℚ) :
    (s.allocVec v).2.readVec (s.allocVec v).1 = v :=
  getD_append_self s.vecs v []

theorem readVec_allocVec_lt (s : Store) (v : List ℚ) (i : Nat)
    (h : i < s.vecs.length) : (s.allocVec v).2.readVec i = s.readVec i :=
  getD_append_lt s.vecs [v] [] i h

theorem readMat_writeMat_self (s : Store) (v : List Mat4) (i : Nat)
    (h : i < s.mats.length) : (s.writeMat i v).readMat i = v :=
  getD_set_self s.mats v [] i h

theorem readMat_writeMat_ne (s : Store) (v : List Mat4) (i j : Nat)
    (h : j ≠ i) : (s.writeMat i v).readMat j = s.readMat j :=
  getD_set_ne s.mats v [] i j h

theorem readVec_writeMat (s : Store) (v : List Mat4) (i j : Nat) :
    (s.writeMat i v).readVec j = s.readVec j := rfl

theorem readMat_writeVec (s : Store) (v : List ℚ) (i j : Nat) :
    (s.writeVec i v).readMat j = s.readMat j := rfl

theorem readVec_writeVec_self (s : Store) (v : List ℚ) (i : Nat)
    (h : i < s.vecs.length) : (s.writeVec i v).readVec i = v :=
  getD_set_self s.vecs v [] i h

theorem readVec_writeVec_ne (s : Store) (v : List ℚ) (i j : Nat)
    (h : j ≠ i) : (s.writeVec i v).readVec j = s.readVec j :=
  getD_set_ne s.vecs v [] i j h

theorem attrsUnchanged_writeMat (c : PinholeCamera) (s s' : Store)
    (v : List Mat4) (j : Nat) (hu : c.attrsUnchanged s s')
    (h1 : c.intrinsicsId ≠ j) (h2 : c.extrinsicsId ≠ j) :
    c.attrsUnchanged s (s'.writeMat j v) := by
  obtain ⟨u1, u2, u3, u4⟩ := hu
  exact ⟨(readMat_writeMat_ne s' v j _ h1).trans u1,
    (readMat_writeMat_ne s' v j _ h2).trans u2,
    (readVec_writeMat s' v j _).trans u3,
    (readVec_writeMat s' v j _).trans u4⟩

theorem attrsUnchanged_writeVec (c : PinholeCamera) (s s' : Store)
    (v : List ℚ) (j : Nat) (hu : c.attrsUnchanged s s')
    (h1 : c.heightId ≠ j) (h2 : c.widthId ≠ j) :
    c.attrsUnchanged s (s'.writeVec j v) := by
  obtain ⟨u1, u2, u3, u4⟩ := hu
  exact ⟨(readMat_writeVec s' v j _).trans u1,
    (readMat_writeVec s' v j _).trans u2,
    (readVec_writeVec_ne s' v j _ h1).trans u3,
    (readVec_writeVec_ne s' v j _ h2).trans u4⟩

theorem getD_concat_eq (l : List α) (v d : α) (i : Nat)
    (h : i = l.length) : (l ++ [v]).getD i d = v := by
  subst h; exact getD_append_self l v d

theorem mapIdxFrom_congr (f g : Nat → α → β) (n : Nat) (l : List α)
    (h : ∀ m a, f m a = g m a) : mapIdxFrom f n l = mapIdxFrom g n l := by
  induction l generalizing n with
  | nil => rfl
  | cons a as ih => simp [mapIdxFrom, h, ih]

theorem mapIdx_congr (f g : Nat → α → β) (l : List α)
    (h : ∀ m a, f m a = g m a) : mapIdx f l = mapIdx g l :=
  mapIdxFrom_congr f g 0 l h

theorem getD_map (f : α → β) (l : List α) (i : Nat) (d : α) (d' : β)
    (h : i < l.length) : (l.map f).getD i d' = f (l.getD i d) := by
  rw [List.getD_eq_getElem _ _ (by simpa using h),
    List.getD_eq_getElem _ _ h, List.getElem_map]

theorem range_map_getD (l : List α) (d : α) :
    (List.range l.length).map (fun i => l.getD i d) = l := by
  apply List.ext_getElem (by simp)
  intro n h1 h2
  simp [List.getD, List.getElem?_eq_getElem h2]

/-- Slicing the camera axis out of a `dim = 1` stack recovers the
`i`-th stacked tensor, provided all stacked tensors share the leading
dimension `B`. -/
theorem stackDim1_slice (ts : List (List α)) (d : α) (B i : Nat)
    (hne : ts ≠ []) (hB : ∀ t ∈ ts, t.length = B)
    (hi : i < ts.length) :
    (stackDim1 d ts).map (fun r => r.getD i d) = ts.getD i [] := by
  have hhead : (ts.headD []).length = B := by
    cases ts with
    | nil => exact absurd rfl hne
    | cons t ts' => exact hB t (List.mem_cons_self t ts')
  have hmem : ts.getD i [] ∈ ts := by
    rw [List.getD_eq_getElem _ _ hi]; exact List.getElem_mem _
  have hlen : (ts.getD i []).length = B := hB _ hmem
  unfold stackDim1
  rw [hhead, List.map_map]
  have hpt : ∀ b ∈ List.range B,
      ((fun r => r.getD i d) ∘ (fun b => ts.map (fun t => t.getD b d))) b
        = (ts.getD i []).getD b d := by
    intro b _
    simp only [Function.comp]
    exact getD_map _ _ _ [] _ hi
  rw [List.map_congr_left hpt, ← hlen, range_map_getD]

theorem headD_range_map (g : Nat → α) (B : Nat) (d : α) (h : 0 < B) :
    (((List.range B).map g).headD d) = g 0 := by
  obtain ⟨B', rfl⟩ : ∃ B', B = B' + 1 := ⟨B - 1, by omega⟩
  rw [List.range_succ_eq_map]
  rfl

/-- The net effect of the sequential entry overwrites in
`pinhole_matrix_row`, as a matrix literal. -/
theorem pinhole_matrix_row_eq (p : Fin 12 → ℚ) (eps : ℚ) :
    pinhole_matrix_row p eps =
      !![p 0,  eps, p 2, eps;
         eps,  p 1, p 3, eps;
         eps,  eps, 1 + eps, eps;
         eps,  eps, eps,     1 + eps] := by
  funext i j
  unfold pinhole_matrix_row setEntry eye4
  fin_cases i <;> fin_cases j <;>
    simp [Matrix.vecHead, Matrix.vecTail, Function.comp]

/-- The net effect of the sequential entry overwrites in
`inverse_pinhole_matrix_row`, as a matrix literal. -/
theorem inverse_pinhole_matrix_row_eq (p : Fin 12 → ℚ) (eps : ℚ) :
    inverse_pinhole_matrix_row p eps =
      !![1 / (p 0 + eps), 0, -(p 2) / (p 0 + eps), 0;
         0, 1 / (p 1 + eps), -(p 3) / (p 1 + eps), 0;
         0, 0, 1, 0;
         0, 0, 0, 1] := by
  funext i j
  unfold inverse_pinhole_matrix_row setEntry eye4
  fin_cases i <;> fin_cases j <;>
    simp [Matrix.vecHead, Matrix.vecTail, Function.comp]

theorem roundtrip_entry00 (p : Fin 12 → ℚ) (eps : ℚ)
    (h0 : p 0 + eps ≠ 0) :
    (inverse_pinhole_matrix_row p eps * pinhole_matrix_row p eps) 0 0 =
      (p 0 - p 2 * eps) / (p 0 + eps) := by
  rw [inverse_pinhole_matrix_row_eq, pinhole_matrix_row_eq,
    Matrix.mul_apply, Fin.sum_univ_four]
  simp [Matrix.vecHead, Matrix.vecTail]
  field_simp
  ring

theorem roundtrip_entry02 (p : Fin 12 → ℚ) (eps : ℚ)
    (h0 : p 0 + eps ≠ 0) :
    (inverse_pinhole_matrix_row p eps * pinhole_matrix_row p eps) 0 2 =
      -(p 2 * eps) / (p 0 + eps) := by
  rw [inverse_pinhole_matrix_row_eq, pinhole_matrix_row_eq,
    Matrix.mul_apply, Fin.sum_univ_four]
  simp [Matrix.vecHead, Matrix.vecTail]
  field_simp
  ring

theorem roundtrip_entry11 (p : Fin 12 → ℚ) (eps : ℚ)
    (h1 : p 1 + eps ≠ 0) :
    (inverse_pinhole_matrix_row p eps * pinhole_matrix_row p eps) 1 1 =
      (p 1 - p 3 * eps) / (p 1 + eps) := by
  rw [inverse_pinhole_matrix_row_eq, pinhole_matrix_row_eq,
    Matrix.mul_apply, Fin.sum_univ_four]
  simp [Matrix.vecHead, Matrix.vecTail]
  field_simp
  ring

theorem roundtrip_entry12 (p : Fin 12 → ℚ) (eps : ℚ)
    (h1 : p 1 + eps ≠ 0) :
    (inverse_pinhole_matrix_row p eps * pinhole_matrix_row p eps) 1 2 =
      -(p 3 * eps) / (p 1 + eps) := by
  rw [inverse_pinhole_matrix_row_eq, pinhole_matrix_row_eq,
    Matrix.mul_apply, Fin.sum_univ_four]
  simp [Matrix.vecHead, Matrix.vecTail]
  field_simp
  ring

theorem diag_bound (cx eps fx : ℚ) (heps0 : 0 < eps)
    (heps : eps ≤ 1/1000000) (hfx : 1 ≤ fx) (hcx : |cx| ≤ 10) :
    |(fx - cx * eps) / (fx + eps) - 1| ≤ 1/10000 := by
  have hfe1 : (1:ℚ) ≤ fx + eps := by linarith
  have hfe0 : (0:ℚ) < fx + eps := by linarith
  have hd : (fx - cx * eps) / (fx + eps) - 1 =
      (-((1 + cx) * eps)) / (fx + eps) := by
    field_simp
    ring
  rw [hd, abs_div, abs_neg, abs_mul, abs_of_pos hfe0, abs_of_pos heps0]
  have h1cx : |1 + cx| ≤ 11 := by
    calc |1 + cx| ≤ |(1:ℚ)| + |cx| := abs_add _ _
      _ ≤ 1 + 10 := by rw [abs_one]; linarith
      _ = 11 := by norm_num
  calc |1 + cx| * eps / (fx + eps) ≤ |1 + cx| * eps :=
        div_le_self (by positivity) hfe1
    _ ≤ 11 * (1/1000000) := by
        apply mul_le_mul h1cx heps (le_of_lt heps0) (by norm_num)
    _ ≤ 1/10000 := by norm_num

theorem offdiag_bound (cx eps fx : ℚ) (heps0 : 0 < eps)
    (heps : eps ≤ 1/1000000) (hfx : 1 ≤ fx) (hcx : |cx| ≤ 10) :
    |(-(cx * eps)) / (fx + eps)| ≤ 1/10000 := by
  have hfe1 : (1:ℚ) ≤ fx + eps := by linarith
  have hfe0 : (0:ℚ) < fx + eps := by linarith
  rw [abs_div, abs_neg, abs_mul, abs_of_pos hfe0, abs_of_pos heps0]
  calc |cx| * eps / (fx + eps) ≤ |cx| * eps :=
        div_le_self (by positivity) hfe1
    _ ≤ 10 * (1/1000000) := by
        apply mul_le_mul hcx heps (le_of_lt heps0) (by norm_num)
    _ ≤ 1/10000 := by norm_num

theorem getD_pinhole_matrix (ps : List (Fin 12 → ℚ)) (eps : ℚ)
    (n : Nat) (hn : n < ps.length) :
    (pinhole_matrix ps eps).getD n zeroMat =
      pinhole_matrix_row (ps.getD n zeroRow) eps := by
  unfold pinhole_matrix
  rw [List.getD_eq_getElem _ _ (by simpa using hn),
    List.getD_eq_getElem _ _ hn, List.getElem_map]

theorem getD_inverse_pinhole_matrix (ps : List (Fin 12 → ℚ)) (eps : ℚ)
    (n : Nat) (hn : n < ps.length) :
    (inverse_pinhole_matrix ps eps).getD n zeroMat =
      inverse_pinhole_matrix_row (ps.getD n zeroRow) eps := by
  unfold inverse_pinhole_matrix
  rw [List.getD_eq_getElem _ _ (by simpa using hn),
    List.getD_eq_getElem _ _ hn, List.getElem_map]

/-! ## Theorems -/

/-- C2: the claim says a `PinholeCamera` built from intrinsics of batch
size 2 and extrinsics of batch size 3 fails with a validation error,
but `_check_valid` only tests each leading dimension for truthiness
(`all(data.shape[0] for ...)`) and never compares them: construction
with shapes `(2,4,4)`, `(3,4,4)`, `(2,)`, `(2,)` succeeds. -/
theorem init_accepts_mismatched_batch_sizes :
    init_validation [2, 4, 4] [3, 4, 4] [2] [2] = Except.ok () := by
  rfl

/-- C10: the claim says an intrinsics argument whose trailing two
dimensions are not 4×4 is rejected at construction, but in
`_check_valid_params` the trailing-shape conjunct is an `is not`
object-identity test that never fires, so a rank-3 tensor of shape
`(1,3,3)` passes every constructor check. -/
theorem init_accepts_bad_trailing_dims :
    init_validation [1, 3, 3] [1, 4, 4] [1] [1] = Except.ok () := by
  rfl

/-- C7: the claim says a shape-mismatch failure of
`homography_i_H_ref` reaches the caller as a descriptive error naming
the failing argument and its actual vs. expected shape; in the source
the first assert's message expression is the undefined name `pinhole`,
so with `pinhole_i` of shape `(1, 11)` the caller receives
`NameError: name 'pinhole' is not defined` instead. -/
theorem homography_checks_name_error :
    homography_i_H_ref_checks [1, 11] [1, 11] =
      Except.error (PyExc.nameError "pinhole") := by
  rfl

/-- C4: `pinhole_matrix` maps each parameter row to the 4×4 matrix
that is the identity with `eps` added to every entry, except that
`[0,0]` is overwritten with `fx`, `[0,2]` with `cx`, `[1,1]` with `fy`
and `[1,2]` with `cy`; in particular every off-diagonal entry other
than `[0,2]` and `[1,2]` equals `eps` and entries `[2,2]` and `[3,3]`
equal `1 + eps`. -/
theorem pinhole_matrix_spec (ps : List (Fin 12 → ℚ)) (eps : ℚ) :
    pinhole_matrix ps eps = ps.map (fun p =>
      !![p 0,  eps, p 2,     eps;
         eps,  p 1, p 3,     eps;
         eps,  eps, 1 + eps, eps;
         eps,  eps, eps,     1 + eps]) := by
  unfold pinhole_matrix
  exact List.map_congr_left (fun p _ => pinhole_matrix_row_eq p eps)

/-- C5: `inverse_pinhole_matrix` maps each parameter row to the 4×4
matrix with `[0,0] = 1/(fx+eps)`, `[1,1] = 1/(fy+eps)`,
`[0,2] = -cx/(fx+eps)`, `[1,2] = -cy/(fy+eps)` and every remaining
entry equal to the corresponding identity entry, with no `eps`
perturbation of the identity part. -/
theorem inverse_pinhole_matrix_spec (ps : List (Fin 12 → ℚ)) (eps : ℚ) :
    inverse_pinhole_matrix ps eps = ps.map (fun p =>
      !![1 / (p 0 + eps), 0, -(p 2) / (p 0 + eps), 0;
         0, 1 / (p 1 + eps), -(p 3) / (p 1 + eps), 0;
         0, 0, 1, 0;
         0, 0, 0, 1]) := by
  unfold inverse_pinhole_matrix
  exact List.map_congr_left
    (fun p _ => inverse_pinhole_matrix_row_eq p eps)

/-- C1: for a valid camera and a broadcastable scale factor,
`scale` returns a new camera whose `fx`, `fy`, `cx`, `cy`, height and
width each equal the factor times the original's corresponding value
at every batch index, whose extrinsics is the very same tensor as the
original's (the shared id, not a clone), and whose construction leaves
the original camera's intrinsics, height and width unchanged in the
store. -/
theorem scale_spec (s : Store) (c : PinholeCamera) (factor : List ℚ)
    (B b : Nat) (hv : c.ValidIn s) (hB : c.BatchIn s B)
    (hf : factor.length = 1 ∨ factor.length = B) (hb : b < B) :
    (((c.scale factor s).2.readMat
        (c.scale factor s).1.intrinsicsId).getD b zeroMat) 0 0 =
      bfactor factor b * ((s.readMat c.intrinsicsId).getD b zeroMat) 0 0 ∧
    (((c.scale factor s).2.readMat
        (c.scale factor s).1.intrinsicsId).getD b zeroMat) 1 1 =
      bfactor factor b * ((s.readMat c.intrinsicsId).getD b zeroMat) 1 1 ∧
    (((c.scale factor s).2.readMat
        (c.scale factor s).1.intrinsicsId).getD b zeroMat) 0 2 =
      bfactor factor b * ((s.readMat c.intrinsicsId).getD b zeroMat) 0 2 ∧
    (((c.scale factor s).2.readMat
        (c.scale factor s).1.intrinsicsId).getD b zeroMat) 1 2 =
      bfactor factor b * ((s.readMat c.intrinsicsId).getD b zeroMat) 1 2 ∧
    ((c.scale factor s).2.readVec (c.scale factor s).1.heightId).getD b 0 =
      bfactor factor b * (s.readVec c.heightId).getD b 0 ∧
    ((c.scale factor s).2.readVec (c.scale factor s).1.widthId).getD b 0 =
      bfactor factor b * (s.readVec c.widthId).getD b 0 ∧
    (c.scale factor s).1.extrinsicsId = c.extrinsicsId ∧
    (c.scale factor s).2.readMat c.intrinsicsId = s.readMat c.intrinsicsId ∧
    (c.scale factor s).2.readVec c.heightId = s.readVec c.heightId ∧
    (c.scale factor s).2.readVec c.widthId = s.readVec c.widthId := by
  obtain ⟨hvi, hve, hvh, hvw⟩ := hv
  obtain ⟨hBi, hBe, hBh, hBw⟩ := hB
  have hbk : b < (s.mats.getD c.intrinsicsId []).length := by
    simp only [Store.readMat] at hBi; omega
  have hbh : b < (s.vecs.getD c.heightId []).length := by
    simp only [Store.readVec] at hBh; omega
  have hbw : b < (s.vecs.getD c.widthId []).length := by
    simp only [Store.readVec] at hBw; omega
  simp only [PinholeCamera.scale, Store.allocMat, Store.allocVec,
    Store.readMat, Store.readVec]
  refine ⟨?_, ?_, ?_, ?_, ?_, ?_, trivial, ?_, ?_, ?_⟩
  all_goals
    try simp only [getD_append_self, List.length_append, List.length_cons,
      List.length_nil]
  case refine_1 | refine_2 | refine_3 | refine_4 =>
    rw [getD_mapIdx _ _ _ zeroMat _ hbk]
    simp [scaleIntrinsicsSlice, setEntry, mul_comm]
  case refine_5 =>
    rw [getD_append_lt _ _ _ _ (by simp), getD_append_self,
      getD_mapIdx _ _ _ 0 _ hbh]
  case refine_6 =>
    rw [show s.vecs.length + (0 + 1) =
        (s.vecs ++ [mapIdx (fun b x => bfactor factor b * x)
          (s.vecs.getD c.heightId [])]).length by simp,
      getD_append_self, getD_append_lt _ _ _ _ hvw,
      getD_mapIdx _ _ _ 0 _ hbw]
  case refine_7 => rw [getD_append_lt _ _ _ _ hvi]
  case refine_8 =>
    rw [getD_append_lt _ _ _ _ (by simp; omega),
      getD_append_lt _ _ _ _ hvh]
  case refine_9 =>
    rw [getD_append_lt _ _ _ _ (by simp; omega),
      getD_append_lt _ _ _ _ hvw]

/-- C9: for a valid camera, `clone` returns a new camera whose four
tensors are equal in value to the original's but held in distinct
storage, so that overwriting any attribute tensor of the clone leaves
every attribute of the original unchanged. -/
theorem clone_spec (s : Store) (c : PinholeCamera) (hv : c.ValidIn s) :
    (c.clone s).2.readMat (c.clone s).1.intrinsicsId =
      s.readMat c.intrinsicsId ∧
    (c.clone s).2.readMat (c.clone s).1.extrinsicsId =
      s.readMat c.extrinsicsId ∧
    (c.clone s).2.readVec (c.clone s).1.heightId =
      s.readVec c.heightId ∧
    (c.clone s).2.readVec (c.clone s).1.widthId =
      s.readVec c.widthId ∧
    (c.clone s).1.intrinsicsId ≠ c.intrinsicsId ∧
    (c.clone s).1.extrinsicsId ≠ c.extrinsicsId ∧
    (c.clone s).1.heightId ≠ c.heightId ∧
    (c.clone s).1.widthId ≠ c.widthId ∧
    (∀ v : List Mat4,
      c.attrsUnchanged s
        ((c.clone s).2.writeMat (c.clone s).1.intrinsicsId v) ∧
      c.attrsUnchanged s
        ((c.clone s).2.writeMat (c.clone s).1.extrinsicsId v)) ∧
    (∀ v : List ℚ,
      c.attrsUnchanged s
        ((c.clone s).2.writeVec (c.clone s).1.heightId v) ∧
      c.attrsUnchanged s
        ((c.clone s).2.writeVec (c.clone s).1.widthId v)) := by
  obtain ⟨hvi, hve, hvh, hvw⟩ := hv
  simp only [PinholeCamera.clone, Store.allocVec, Store.allocMat,
    Store.readMat, Store.readVec, List.length_append, List.length_cons,
    List.length_nil]
  have base : c.attrsUnchanged s
      ⟨s.mats ++ [s.mats.getD c.intrinsicsId []] ++
        [(s.mats ++ [s.mats.getD c.intrinsicsId []]).getD c.extrinsicsId []],
       s.vecs ++ [s.vecs.getD c.heightId []] ++
        [(s.vecs ++ [s.vecs.getD c.heightId []]).getD c.widthId []]⟩ := by
    refine ⟨?_, ?_, ?_, ?_⟩ <;>
      simp only [Store.readMat, Store.readVec] <;>
      rw [getD_append_lt _ _ _ _ (by simp; omega),
        getD_append_lt _ _ _ _ (by omega)]
  refine ⟨?_, ?_, ?_, ?_, by omega, by omega, by omega, by omega,
    fun v => ⟨?_, ?_⟩, fun v => ⟨?_, ?_⟩⟩
  case refine_1 =>
    rw [getD_append_lt _ _ _ _ (by simp), getD_append_self]
  case refine_2 =>
    rw [show s.mats.length + 1 =
        (s.mats ++ [s.mats.getD c.intrinsicsId []]).length by simp,
      getD_append_self, getD_append_lt _ _ _ _ hve]
  case refine_3 =>
    rw [getD_append_lt _ _ _ _ (by simp), getD_append_self]
  case refine_4 =>
    rw [show s.vecs.length + 1 =
        (s.vecs ++ [s.vecs.getD c.heightId []]).length by simp,
      getD_append_self, getD_append_lt _ _ _ _ hvw]
  case refine_5 =>
    exact attrsUnchanged_writeMat c s _ v _ base (by omega) (by omega)
  case refine_6 =>
    exact attrsUnchanged_writeMat c s _ v _ base (by omega) (by omega)
  case refine_7 =>
    exact attrsUnchanged_writeVec c s _ v _ base (by omega) (by omega)
  case refine_8 =>
    exact attrsUnchanged_writeVec c s _ v _ base (by omega) (by omega)

/-- C3: for a valid camera owning its tensors exclusively and a
broadcastable factor, `scale_` returns the receiver itself, mutates the
receiver's intrinsics, height and width so that subsequent reads
observe the scaled values, and those attribute values are numerically
equal to the attributes of `scale` applied to a clone of the original
camera. -/
theorem scale_in_place_spec (s : Store) (c : PinholeCamera)
    (factor : List ℚ) (B b : Nat) (hv : c.ValidIn s)
    (hex : c.Exclusive) (hB : c.BatchIn s B)
    (hf : factor.length = 1 ∨ factor.length = B) (hb : b < B) :
    (c.scale_ factor s).1 = c ∧
    (((c.scale_ factor s).2.readMat c.intrinsicsId).getD b zeroMat) 0 0 =
      bfactor factor b * ((s.readMat c.intrinsicsId).getD b zeroMat) 0 0 ∧
    (((c.scale_ factor s).2.readMat c.intrinsicsId).getD b zeroMat) 1 1 =
      bfactor factor b * ((s.readMat c.intrinsicsId).getD b zeroMat) 1 1 ∧
    (((c.scale_ factor s).2.readMat c.intrinsicsId).getD b zeroMat) 0 2 =
      bfactor factor b * ((s.readMat c.intrinsicsId).getD b zeroMat) 0 2 ∧
    (((c.scale_ factor s).2.readMat c.intrinsicsId).getD b zeroMat) 1 2 =
      bfactor factor b * ((s.readMat c.intrinsicsId).getD b zeroMat) 1 2 ∧
    ((c.scale_ factor s).2.readVec c.heightId).getD b 0 =
      bfactor factor b * (s.readVec c.heightId).getD b 0 ∧
    ((c.scale_ factor s).2.readVec c.widthId).getD b 0 =
      bfactor factor b * (s.readVec c.widthId).getD b 0 ∧
    (c.scale_ factor s).2.readMat c.intrinsicsId =
      ((c.clone s).1.scale factor (c.clone s).2).2.readMat
        ((c.clone s).1.scale factor (c.clone s).2).1.intrinsicsId ∧
    (c.scale_ factor s).2.readMat c.extrinsicsId =
      ((c.clone s).1.scale factor (c.clone s).2).2.readMat
        ((c.clone s).1.scale factor (c.clone s).2).1.extrinsicsId ∧
    (c.scale_ factor s).2.readVec c.heightId =
      ((c.clone s).1.scale factor (c.clone s).2).2.readVec
        ((c.clone s).1.scale factor (c.clone s).2).1.heightId ∧
    (c.scale_ factor s).2.readVec c.widthId =
      ((c.clone s).1.scale factor (c.clone s).2).2.readVec
        ((c.clone s).1.scale factor (c.clone s).2).1.widthId := by
  obtain ⟨hvi, hve, hvh, hvw⟩ := hv
  obtain ⟨hx1, hx2⟩ := hex
  obtain ⟨hBi, hBe, hBh, hBw⟩ := hB
  have hbk : b < (s.mats.getD c.intrinsicsId []).length := by
    simp only [Store.readMat] at hBi; omega
  have hbh : b < (s.vecs.getD c.heightId []).length := by
    simp only [Store.readVec] at hBh; omega
  have hbw : b < (s.vecs.getD c.widthId []).length := by
    simp only [Store.readVec] at hBw; omega
  simp only [PinholeCamera.scale_, PinholeCamera.scale,
    PinholeCamera.clone, Store.allocMat, Store.allocVec, Store.writeMat,
    Store.writeVec, Store.readMat, Store.readVec, List.length_append,
    List.length_cons, List.length_nil, Nat.zero_add]
  refine ⟨trivial, ?_, ?_, ?_, ?_, ?_, ?_, ?_, ?_, ?_, ?_⟩
  case refine_1 | refine_2 | refine_3 | refine_4 =>
    rw [getD_set_self _ _ _ _ hvi, getD_mapIdx _ _ _ zeroMat _ hbk]
    simp [scaleIntrinsicsSlice, setEntry, mul_comm]
  case refine_5 =>
    rw [getD_set_ne _ _ _ _ _ hx2, getD_set_self _ _ _ _ hvh,
      getD_mapIdx _ _ _ 0 _ hbh]
    exact mul_comm _ _
  case refine_6 =>
    rw [getD_set_self _ _ _ _ (by simpa using hvw),
      getD_set_ne _ _ _ _ _ (Ne.symm hx2), getD_mapIdx _ _ _ 0 _ hbw]
    exact mul_comm _ _
  case refine_7 =>
    rw [getD_set_self _ _ _ _ hvi,
      getD_concat_eq _ _ _ _ (by simp only [List.length_append,
        List.length_cons, List.length_nil] <;> omega),
      getD_append_lt _ _ _ _ (by simp only [List.length_append,
        List.length_cons, List.length_nil] <;> omega),
      getD_concat_eq _ _ _ _ rfl]
  case refine_8 =>
    rw [getD_set_ne _ _ _ _ _ (Ne.symm hx1),
      getD_append_lt _ _ _ _ (by simp only [List.length_append,
        List.length_cons, List.length_nil] <;> omega),
      getD_concat_eq _ _ _ _ (by simp only [List.length_append,
        List.length_cons, List.length_nil] <;> omega),
      getD_append_lt _ _ _ _ hve]
  case refine_9 =>
    rw [getD_set_ne _ _ _ _ _ hx2, getD_set_self _ _ _ _ hvh,
      getD_append_lt _ _ _ _ (by simp only [List.length_append,
        List.length_cons, List.length_nil] <;> omega),
      getD_concat_eq _ _ _ _ (by simp only [List.length_append,
        List.length_cons, List.length_nil] <;> omega),
      getD_append_lt _ _ _ _ (by simp only [List.length_append,
        List.length_cons, List.length_nil] <;> omega),
      getD_concat_eq _ _ _ _ rfl]
    exact mapIdx_congr _ _ _ (fun m a => mul_comm a (bfactor factor m))
  case refine_10 =>
    rw [getD_set_self _ _ _ _ (by simpa using hvw),
      getD_set_ne _ _ _ _ _ (Ne.symm hx2),
      getD_concat_eq _ _ _ _ (by simp only [List.length_append,
        List.length_cons, List.length_nil] <;> omega),
      getD_append_lt _ _ _ _ (by simp only [List.length_append,
        List.length_cons, List.length_nil] <;> omega),
      getD_concat_eq _ _ _ _ (by simp only [List.length_append,
        List.length_cons, List.length_nil] <;> omega),
      getD_append_lt _ _ _ _ hvw]
    exact mapIdx_congr _ _ _ (fun m a => mul_comm a (bfactor factor m))

/-- C6 (counterexample): the claim as stated — for every parameter
tensor with `fx`, `fy` bounded away from zero, the product of the
inverse and forward intrinsics matrices is within `1e-4` of the
identity on the focal/principal-point sub-block — fails at the row
`fx = fy = 1`, `cx = 10^6` with the default `eps = 1e-6`: the `[0,2]`
entry of the product is about `-1`, not within `1e-4` of `0`. -/
theorem intrinsics_roundtrip_counterexample :
    1 ≤ cexParams 0 ∧ 1 ≤ cexParams 1 ∧
    1/10000 <
      |((inverse_pinhole_matrix [cexParams]).getD 0 zeroMat *
        (pinhole_matrix [cexParams]).getD 0 zeroMat) 0 2 - eye4 0 2| := by
  refine ⟨by norm_num [cexParams], by norm_num [cexParams], ?_⟩
  rw [getD_inverse_pinhole_matrix _ _ _ (by norm_num),
    getD_pinhole_matrix _ _ _ (by norm_num)]
  show 1/10000 < |(inverse_pinhole_matrix_row cexParams (1/1000000) *
    pinhole_matrix_row cexParams (1/1000000)) 0 2 - eye4 0 2|
  rw [roundtrip_entry02 _ _ (by norm_num [cexParams]),
    show eye4 0 2 = 0 from rfl, sub_zero]
  norm_num [cexParams]
  rw [abs_of_pos (by norm_num)]
  norm_num

/-- C6 (amended): for a parameter row whose focal lengths are bounded
away from zero (`fx, fy ≥ 1`) and whose principal point is bounded
(`|cx|, |cy| ≤ 10`), with `0 < eps ≤ 1e-6`, the product of the inverse
and the forward intrinsics matrices is within `1e-4` of the identity
at the focal entries `[0,0]`, `[1,1]` and the principal-point entries
`[0,2]`, `[1,2]`; without the principal-point bound the property is
false (see the counterexample). -/
theorem intrinsics_roundtrip_bounded (ps : List (Fin 12 → ℚ))
    (eps : ℚ) (n : Nat) (hn : n < ps.length) (heps0 : 0 < eps)
    (heps : eps ≤ 1/1000000) (hfx : 1 ≤ (ps.getD n zeroRow) 0)
    (hfy : 1 ≤ (ps.getD n zeroRow) 1)
    (hcx : |(ps.getD n zeroRow) 2| ≤ 10)
    (hcy : |(ps.getD n zeroRow) 3| ≤ 10) :
    |((inverse_pinhole_matrix ps eps).getD n zeroMat *
      (pinhole_matrix ps eps).getD n zeroMat) 0 0 - eye4 0 0|
        ≤ 1/10000 ∧
    |((inverse_pinhole_matrix ps eps).getD n zeroMat *
      (pinhole_matrix ps eps).getD n zeroMat) 1 1 - eye4 1 1|
        ≤ 1/10000 ∧
    |((inverse_pinhole_matrix ps eps).getD n zeroMat *
      (pinhole_matrix ps eps).getD n zeroMat) 0 2 - eye4 0 2|
        ≤ 1/10000 ∧
    |((inverse_pinhole_matrix ps eps).getD n zeroMat *
      (pinhole_matrix ps eps).getD n zeroMat) 1 2 - eye4 1 2|
        ≤ 1/10000 := by
  have h0 : (ps.getD n zeroRow) 0 + eps ≠ 0 := by
    intro h; linarith
  have h1 : (ps.getD n zeroRow) 1 + eps ≠ 0 := by
    intro h; linarith
  rw [getD_inverse_pinhole_matrix _ _ _ hn, getD_pinhole_matrix _ _ _ hn]
  refine ⟨?_, ?_, ?_, ?_⟩
  case refine_1 =>
    rw [show eye4 0 0 = 1 from rfl, roundtrip_entry00 _ _ h0]
    exact diag_bound _ _ _ heps0 heps hfx hcx
  case refine_2 =>
    rw [show eye4 1 1 = 1 from rfl, roundtrip_entry11 _ _ h1]
    exact diag_bound _ _ _ heps0 heps hfy hcy
  case refine_3 =>
    rw [show eye4 0 2 = 0 from rfl, sub_zero, roundtrip_entry02 _ _ h0]
    exact offdiag_bound _ _ _ heps0 heps hfx hcx
  case refine_4 =>
    rw [show eye4 1 2 = 0 from rfl, sub_zero, roundtrip_entry12 _ _ h1]
    exact offdiag_bound _ _ _ heps0 heps hfy hcy

/-- Witness for C6: `intrinsics_roundtrip_bounded` at the concrete row
`fx = fy = 100`, `cx = cy = 5` and the default `eps = 1e-6`. -/
theorem intrinsics_roundtrip_bounded_witness :
    0 < [wParams].length ∧ (0:ℚ) < 1/1000000 ∧
    ((1:ℚ)/1000000 ≤ 1/1000000) ∧
    1 ≤ ([wParams].getD 0 zeroRow) 0 ∧ 1 ≤ ([wParams].getD 0 zeroRow) 1 ∧
    |([wParams].getD 0 zeroRow) 2| ≤ 10 ∧
    |([wParams].getD 0 zeroRow) 3| ≤ 10 ∧
    (|((inverse_pinhole_matrix [wParams] (1/1000000)).getD 0 zeroMat *
      (pinhole_matrix [wParams] (1/1000000)).getD 0 zeroMat) 0 0 -
        eye4 0 0| ≤ 1/10000 ∧
    |((inverse_pinhole_matrix [wParams] (1/1000000)).getD 0 zeroMat *
      (pinhole_matrix [wParams] (1/1000000)).getD 0 zeroMat) 1 1 -
        eye4 1 1| ≤ 1/10000 ∧
    |((inverse_pinhole_matrix [wParams] (1/1000000)).getD 0 zeroMat *
      (pinhole_matrix [wParams] (1/1000000)).getD 0 zeroMat) 0 2 -
        eye4 0 2| ≤ 1/10000 ∧
    |((inverse_pinhole_matrix [wParams] (1/1000000)).getD 0 zeroMat *
      (pinhole_matrix [wParams] (1/1000000)).getD 0 zeroMat) 1 2 -
        eye4 1 2| ≤ 1/10000) :=
  ⟨by norm_num, by norm_num, by norm_num,
    by norm_num [wParams], by norm_num [wParams],
    by norm_num [wParams], by norm_num [wParams],
    intrinsics_roundtrip_bounded [wParams] (1/1000000) 0 (by norm_num)
      (by norm_num) (by norm_num) (by norm_num [wParams])
      (by norm_num [wParams]) (by norm_num [wParams])
      (by norm_num [wParams])⟩

/-- C8: a `PinholeCamerasList` built from a non-empty list of cameras
with common batch size stacks the four attributes along a new camera
axis at position 1 preserving input order: `num_cameras` equals the
length of the input list and, for every in-range index, `get_pinhole`
returns a camera whose intrinsics, extrinsics, height and width equal
the corresponding attributes of the i-th input camera. -/
theorem cameras_list_spec (cams : List PinholeCameraData) (B i : Nat)
    (hne : cams ≠ []) (hB0 : 0 < B)
    (hsz : ∀ cam ∈ cams, cam.BatchSize B) (hi : i < cams.length) :
    num_cameras (mkPinholeCamerasList cams) = cams.length ∧
    (get_pinhole (mkPinholeCamerasList cams) i).intrinsics =
      (cams.getD i emptyCamData).intrinsics ∧
    (get_pinhole (mkPinholeCamerasList cams) i).extrinsics =
      (cams.getD i emptyCamData).extrinsics ∧
    (get_pinhole (mkPinholeCamerasList cams) i).height =
      (cams.getD i emptyCamData).height ∧
    (get_pinhole (mkPinholeCamerasList cams) i).width =
      (cams.getD i emptyCamData).width := by
  have hIne : cams.map (fun c => c.intrinsics) ≠ [] := by
    intro h; exact hne (List.map_eq_nil.mp h)
  have hEne : cams.map (fun c => c.extrinsics) ≠ [] := by
    intro h; exact hne (List.map_eq_nil.mp h)
  have hHne : cams.map (fun c => c.height) ≠ [] := by
    intro h; exact hne (List.map_eq_nil.mp h)
  have hWne : cams.map (fun c => c.width) ≠ [] := by
    intro h; exact hne (List.map_eq_nil.mp h)
  have hIB : ∀ t ∈ cams.map (fun c => c.intrinsics), t.length = B := by
    intro t ht
    obtain ⟨cam, hcam, rfl⟩ := List.mem_map.mp ht
    exact (hsz cam hcam).1
  have hEB : ∀ t ∈ cams.map (fun c => c.extrinsics), t.length = B := by
    intro t ht
    obtain ⟨cam, hcam, rfl⟩ := List.mem_map.mp ht
    exact (hsz cam hcam).2.1
  have hHB : ∀ t ∈ cams.map (fun c => c.height), t.length = B := by
    intro t ht
    obtain ⟨cam, hcam, rfl⟩ := List.mem_map.mp ht
    exact (hsz cam hcam).2.2.1
  have hWB : ∀ t ∈ cams.map (fun c => c.width), t.length = B := by
    intro t ht
    obtain ⟨cam, hcam, rfl⟩ := List.mem_map.mp ht
    exact (hsz cam hcam).2.2.2
  have hiI : i < (cams.map (fun c => c.intrinsics)).length := by
    simpa using hi
  have hiE : i < (cams.map (fun c => c.extrinsics)).length := by
    simpa using hi
  have hiH : i < (cams.map (fun c => c.height)).length := by
    simpa using hi
  have hiW : i < (cams.map (fun c => c.width)).length := by
    simpa using hi
  refine ⟨?_, ?_, ?_, ?_, ?_⟩
  case refine_1 =>
    have hhead : ((cams.map (fun c => c.intrinsics)).headD []).length
        = B := by
      cases cams with
      | nil => exact absurd rfl hne
      | cons a l => exact (hsz a (List.mem_cons_self a l)).1
    unfold num_cameras mkPinholeCamerasList stackDim1
    rw [hhead, headD_range_map _ _ _ hB0]
    simp
  case refine_2 =>
    show (stackDim1 zeroMat (cams.map (fun c => c.intrinsics))).map
        (fun r => r.getD i zeroMat) = _
    rw [stackDim1_slice _ _ B i hIne hIB hiI,
      getD_map _ _ _ emptyCamData _ hi]
  case refine_3 =>
    show (stackDim1 zeroMat (cams.map (fun c => c.extrinsics))).map
        (fun r => r.getD i zeroMat) = _
    rw [stackDim1_slice _ _ B i hEne hEB hiE,
      getD_map _ _ _ emptyCamData _ hi]
  case refine_4 =>
    show (stackDim1 0 (cams.map (fun c => c.height))).map
        (fun r => r.getD i 0) = _
    rw [stackDim1_slice _ _ B i hHne hHB hiH,
      getD_map _ _ _ emptyCamData _ hi]
  case refine_5 =>
    show (stackDim1 0 (cams.map (fun c => c.width))).map
        (fun r => r.getD i 0) = _
    rw [stackDim1_slice _ _ B i hWne hWB hiW,
      getD_map _ _ _ emptyCamData _ hi]

/-- Witness for C8: `cameras_list_spec` applied to a concrete
two-camera list with batch size 1, extracting index 1. -/
theorem cameras_list_spec_witness :
    [wCamDataA, wCamDataB] ≠ ([] : List PinholeCameraData) ∧ 0 < 1 ∧
    (∀ cam ∈ [wCamDataA, wCamDataB], cam.BatchSize 1) ∧
    1 < [wCamDataA, wCamDataB].length ∧
    (num_cameras (mkPinholeCamerasList [wCamDataA, wCamDataB]) =
      [wCamDataA, wCamDataB].length ∧
    (get_pinhole (mkPinholeCamerasList [wCamDataA, wCamDataB]) 1).intrinsics =
      ([wCamDataA, wCamDataB].getD 1 emptyCamData).intrinsics ∧
    (get_pinhole (mkPinholeCamerasList [wCamDataA, wCamDataB]) 1).extrinsics =
      ([wCamDataA, wCamDataB].getD 1 emptyCamData).extrinsics ∧
    (get_pinhole (mkPinholeCamerasList [wCamDataA, wCamDataB]) 1).height =
      ([wCamDataA, wCamDataB].getD 1 emptyCamData).height ∧
    (get_pinhole (mkPinholeCamerasList [wCamDataA, wCamDataB]) 1).width =
      ([wCamDataA, wCamDataB].getD 1 emptyCamData).width) :=
  ⟨by simp, by decide, by decide, by decide,
    cameras_list_spec [wCamDataA, wCamDataB] 1 1 (by simp) (by decide)
      (by decide) (by decide)⟩

/-- Witness for C3: `scale_in_place_spec` applied to the concrete
one-camera store, factor `(2,)`, batch index 0. -/
theorem scale_in_place_spec_witness :
    wCam.ValidIn wStore ∧ wCam.Exclusive ∧ wCam.BatchIn wStore 1 ∧
    (wFactor.length = 1 ∨ wFactor.length = 1) ∧ 0 < 1 ∧
    ((wCam.scale_ wFactor wStore).1 = wCam ∧
    (((wCam.scale_ wFactor wStore).2.readMat wCam.intrinsicsId).getD 0
        zeroMat) 0 0 =
      bfactor wFactor 0 *
        ((wStore.readMat wCam.intrinsicsId).getD 0 zeroMat) 0 0 ∧
    (((wCam.scale_ wFactor wStore).2.readMat wCam.intrinsicsId).getD 0
        zeroMat) 1 1 =
      bfactor wFactor 0 *
        ((wStore.readMat wCam.intrinsicsId).getD 0 zeroMat) 1 1 ∧
    (((wCam.scale_ wFactor wStore).2.readMat wCam.intrinsicsId).getD 0
        zeroMat) 0 2 =
      bfactor wFactor 0 *
        ((wStore.readMat wCam.intrinsicsId).getD 0 zeroMat) 0 2 ∧
    (((wCam.scale_ wFactor wStore).2.readMat wCam.intrinsicsId).getD 0
        zeroMat) 1 2 =
      bfactor wFactor 0 *
        ((wStore.readMat wCam.intrinsicsId).getD 0 zeroMat) 1 2 ∧
    ((wCam.scale_ wFactor wStore).2.readVec wCam.heightId).getD 0 0 =
      bfactor wFactor 0 * (wStore.readVec wCam.heightId).getD 0 0 ∧
    ((wCam.scale_ wFactor wStore).2.readVec wCam.widthId).getD 0 0 =
      bfactor wFactor 0 * (wStore.readVec wCam.widthId).getD 0 0 ∧
    (wCam.scale_ wFactor wStore).2.readMat wCam.intrinsicsId =
      ((wCam.clone wStore).1.scale wFactor (wCam.clone wStore).2).2.readMat
        ((wCam.clone wStore).1.scale wFactor
          (wCam.clone wStore).2).1.intrinsicsId ∧
    (wCam.scale_ wFactor wStore).2.readMat wCam.extrinsicsId =
      ((wCam.clone wStore).1.scale wFactor (wCam.clone wStore).2).2.readMat
        ((wCam.clone wStore).1.scale wFactor
          (wCam.clone wStore).2).1.extrinsicsId ∧
    (wCam.scale_ wFactor wStore).2.readVec wCam.heightId =
      ((wCam.clone wStore).1.scale wFactor (wCam.clone wStore).2).2.readVec
        ((wCam.clone wStore).1.scale wFactor
          (wCam.clone wStore).2).1.heightId ∧
    (wCam.scale_ wFactor wStore).2.readVec wCam.widthId =
      ((wCam.clone wStore).1.scale wFactor (wCam.clone wStore).2).2.readVec
        ((wCam.clone wStore).1.scale wFactor
          (wCam.clone wStore).2).1.widthId) :=
  ⟨by decide, by decide, by decide, Or.inl rfl, by decide,
    scale_in_place_spec wStore wCam wFactor 1 0 (by decide) (by decide)
      (by decide) (Or.inl rfl) (by decide)⟩

/-- Witness for C1: `scale_spec` applied to the concrete one-camera
store, factor `(2,)`, batch index 0. -/
theorem scale_spec_witness :
    wCam.ValidIn wStore ∧ wCam.BatchIn wStore 1 ∧
    (wFactor.length = 1 ∨ wFactor.length = 1) ∧ 0 < 1 ∧
    ((((wCam.scale wFactor wStore).2.readMat
        (wCam.scale wFactor wStore).1.intrinsicsId).getD 0 zeroMat) 0 0 =
      bfactor wFactor 0 *
        ((wStore.readMat wCam.intrinsicsId).getD 0 zeroMat) 0 0 ∧
    (((wCam.scale wFactor wStore).2.readMat
        (wCam.scale wFactor wStore).1.intrinsicsId).getD 0 zeroMat) 1 1 =
      bfactor wFactor 0 *
        ((wStore.readMat wCam.intrinsicsId).getD 0 zeroMat) 1 1 ∧
    (((wCam.scale wFactor wStore).2.readMat
        (wCam.scale wFactor wStore).1.intrinsicsId).getD 0 zeroMat) 0 2 =
      bfactor wFactor 0 *
        ((wStore.readMat wCam.intrinsicsId).getD 0 zeroMat) 0 2 ∧
    (((wCam.scale wFactor wStore).2.readMat
        (wCam.scale wFactor wStore).1.intrinsicsId).getD 0 zeroMat) 1 2 =
      bfactor wFactor 0 *
        ((wStore.readMat wCam.intrinsicsId).getD 0 zeroMat) 1 2 ∧
    ((wCam.scale wFactor wStore).2.readVec
        (wCam.scale wFactor wStore).1.heightId).getD 0 0 =
      bfactor wFactor 0 * (wStore.readVec wCam.heightId).getD 0 0 ∧
    ((wCam.scale wFactor wStore).2.readVec
        (wCam.scale wFactor wStore).1.widthId).getD 0 0 =
      bfactor wFactor 0 * (wStore.readVec wCam.widthId).getD 0 0 ∧
    (wCam.scale wFactor wStore).1.extrinsicsId = wCam.extrinsicsId ∧
    (wCam.scale wFactor wStore).2.readMat wCam.intrinsicsId =
      wStore.readMat wCam.intrinsicsId ∧
    (wCam.scale wFactor wStore).2.readVec wCam.heightId =
      wStore.readVec wCam.heightId ∧
    (wCam.scale wFactor wStore).2.readVec wCam.widthId =
      wStore.readVec wCam.widthId) :=
  ⟨by decide, by decide, Or.inl rfl, by decide,
    scale_spec wStore wCam wFactor 1 0 (by decide) (by decide)
      (Or.inl rfl) (by decide)⟩

/-- Witness for C9: `clone_spec` applied to the concrete one-camera
store; the mutation-frame part is instantiated at concrete overwrites. -/
theorem clone_spec_witness :
    wCam.ValidIn wStore ∧
    ((wCam.clone wStore).2.readMat (wCam.clone wStore).1.intrinsicsId =
      wStore.readMat wCam.intrinsicsId ∧
    (wCam.clone wStore).2.readMat (wCam.clone wStore).1.extrinsicsId =
      wStore.readMat wCam.extrinsicsId ∧
    (wCam.clone wStore).2.readVec (wCam.clone wStore).1.heightId =
      wStore.readVec wCam.heightId ∧
    (wCam.clone wStore).2.readVec (wCam.clone wStore).1.widthId =
      wStore.readVec wCam.widthId ∧
    (wCam.clone wStore).1.intrinsicsId ≠ wCam.intrinsicsId ∧
    (wCam.clone wStore).1.extrinsicsId ≠ wCam.extrinsicsId ∧
    (wCam.clone wStore).1.heightId ≠ wCam.heightId ∧
    (wCam.clone wStore).1.widthId ≠ wCam.widthId ∧
    wCam.attrsUnchanged wStore
      ((wCam.clone wStore).2.writeMat
        (wCam.clone wStore).1.intrinsicsId [zeroMat]) ∧
    wCam.attrsUnchanged wStore
      ((wCam.clone wStore).2.writeMat
        (wCam.clone wStore).1.extrinsicsId [zeroMat]) ∧
    wCam.attrsUnchanged wStore
      ((wCam.clone wStore).2.writeVec
        (wCam.clone wStore).1.heightId [42]) ∧
    wCam.attrsUnchanged wStore
      ((wCam.clone wStore).2.writeVec
        (wCam.clone wStore).1.widthId [42])) := by
  have h := clone_spec wStore wCam (by decide)
  exact ⟨by decide, h.1, h.2.1, h.2.2.1, h.2.2.2.1, h.2.2.2.2.1,
    h.2.2.2.2.2.1, h.2.2.2.2.2.2.1, h.2.2.2.2.2.2.2.1,
    (h.2.2.2.2.2.2.2.2.1 [zeroMat]).1, (h.2.2.2.2.2.2.2.2.1 [zeroMat]).2,
    (h.2.2.2.2.2.2.2.2.2 [42]).1, (h.2.2.2.2.2.2.2.2.2 [42]).2⟩

end Pinhole
